import Mathlib

/-!
Shallow embedding of the dotweb web-server wrapper (server.go) and proofs
about its configuration resolver and server bootstrapper.

The Go code under verification is `server.go` of KeKsBoTer/dotweb:
the `Config` record, `DefaultConfig`, `ConfigFromFlags`, `loadConfig`
and `StartWebServer`.  External collaborators (the standard `flag`
package, `strconv`, `encoding/json` key matching, `strings`, `net/url`
rendering and the autocert challenge interception) are modelled at the
level documented by their packages, with doc comments naming the
modelled function.
-/

namespace Dotweb

/-- Rendered components of a server-side request URL, as Go's net/url
keeps them after parsing a request target: the (escaped) path, the raw
query and the fragment.  Scheme, user info, opaque part and host are
empty for URLs of requests received by a server, so they are not
modelled. -/
structure URL where
  path : String
  rawQuery : String
  fragment : String
deriving DecidableEq

/-- Modelled from net/url URL.String() restricted to server-side request
URLs (no scheme, no opaque part, no user info, no host, ForceQuery not
set): path, then "?query" when the raw query is nonempty, then
"#fragment" when the fragment is nonempty. -/
def URL.render (u : URL) : String :=
  u.path ++ (if u.rawQuery = "" then "" else "?" ++ u.rawQuery)
         ++ (if u.fragment = "" then "" else "#" ++ u.fragment)

/-- An incoming HTTP request: the Host header (r.Host) and the request
URL (r.URL). -/
structure Request where
  host : String
  url : URL
deriving DecidableEq

/-- What a handler writes to its http.ResponseWriter, observed by the
client: a status code and a body. -/
structure Response where
  status : Nat
  body : String
deriving DecidableEq

/-- Config (server.go lines 18-42).  The Handler field is Go's nilable
http.HandlerFunc, modelled as an optional function from requests to
responses; it carries the json tag "-" and is never serialized. -/
structure Config where
  Host : String
  HTTPPort : Int
  HTTPSPort : Int
  Handler : Option (Request → Response)
  CertsDir : String
  RedirectHTTP : Bool

/-- DefaultConfig (server.go lines 45-53). -/
def DefaultConfig : Config :=
  { Host := ""
    HTTPPort := 80
    HTTPSPort := 443
    Handler := none
    RedirectHTTP := true
    CertsDir := "certs" }

/-- Modelled from strings.HasPrefix, at the level of character
sequences. -/
def hasPrefixStr (s pre : String) : Bool :=
  pre.data.isPrefixOf s.data

/-- Modelled from strings.HasSuffix, at the level of character
sequences. -/
def hasSuffixStr (s suffix : String) : Bool :=
  suffix.data.isSuffixOf s.data

/-- Modelled from strings.TrimSuffix: remove the suffix when present,
otherwise return the string unchanged. -/
def trimSuffixStr (s suffix : String) : String :=
  if hasSuffixStr s suffix then
    String.mk (s.data.take (s.data.length - suffix.data.length))
  else s

/-- Modelled from autocert.Manager.HTTPHandler's challenge interception:
ACME "http-01" challenge requests are the ones whose URL path starts
with the well-known challenge prefix; all other requests are passed to
the wrapped fallback handler. -/
def acmeChallengePath (p : String) : Bool :=
  hasPrefixStr p "/.well-known/acme-challenge/"

/-- Observable outcome of one request hitting the HTTP listener:
answered by the ACME challenge responder, answered with a redirect
(status and Location header), answered by the configured handler, or
dropped with nothing written (the server then sends an empty 200
response). -/
inductive HTTPResult where
  | acmeChallenge
  | redirect (status : Nat) (location : String)
  | handled (resp : Response)
  | empty
deriving DecidableEq

/-- Mirrors the closure installed on the HTTP listener (server.go lines
161-173), wrapped by the autocert challenge interceptor.  The boolean
httpsAvailable is the local variable of StartWebServer captured by the
closure. -/
def httpHandlerOf (config : Config) (httpsAvailable : Bool) (r : Request) : HTTPResult :=
  if acmeChallengePath r.url.path then .acmeChallenge
  else if config.RedirectHTTP && httpsAvailable then
    let HTTPPort := ":" ++ toString config.HTTPPort
    let HTTPSPort := ":" ++ toString config.HTTPSPort
    let host := r.host
    let host := if hasSuffixStr host HTTPPort
      then trimSuffixStr host HTTPPort ++ HTTPSPort
      else host
    .redirect 301 ("https://" ++ host ++ URL.render r.url)
  else
    match config.Handler with
    | some h => .handled (h r)
    | none => .empty

/-- HTTPS availability as StartWebServer computes it (server.go lines
134-137): true unless the certificates directory is the empty string. -/
def httpsAvailableOf (config : Config) : Bool :=
  !(config.CertsDir.length == 0)

/-- The complete request handler of the HTTP listener started by
StartWebServer, with httpsAvailable computed as in the code. -/
def httpListenerHandler (config : Config) : Request → HTTPResult :=
  httpHandlerOf config (httpsAvailableOf config)

/- Helper lemmas about strings as character lists. -/

theorem string_eq_of_data {a b : String} (h : a.data = b.data) : a = b := by
  cases a; cases b; exact congrArg String.mk h

theorem string_length_zero_iff (s : String) : s.length = 0 ↔ s = "" := by
  cases s with
  | mk l =>
    cases l with
    | nil => simp
    | cons c cs =>
      constructor
      · intro h; simp [String.length] at h
      · intro h
        exact absurd (congrArg String.data h) (by simp)

theorem hasSuffixStr_append (pre suffix : String) :
    hasSuffixStr (pre ++ suffix) suffix = true := by
  simp [hasSuffixStr, List.isSuffixOf_iff_suffix]

theorem trimSuffixStr_append (pre suffix : String) :
    trimSuffixStr (pre ++ suffix) suffix = pre := by
  rw [trimSuffixStr, if_pos (hasSuffixStr_append pre suffix)]
  apply string_eq_of_data
  simp [List.take_left']

/-- Abstraction of the file-system operations StartWebServer performs on
the certificates directory: whether os.Open(path) succeeds (the path
exists and is accessible) and what os.Mkdir(path, os.ModePerm) returns
(none for success, some message for the error). -/
structure FS where
  openOk : String → Bool
  mkdirErr : String → Option String

/-- The warning logged by StartWebServer when no certificates directory
is configured (server.go line 137). -/
def noCertsWarning : String :=
  "warning: no certs dir was provided, https was disabled"

/-- Observable trace of one StartWebServer call: the log warnings, the
computed httpsAvailable flag, whether os.Mkdir created the certificates
directory, which listeners were started, and the error value the call
returned (an early os.Mkdir error, or otherwise the error with which the
foreground HTTP listener terminated). -/
structure Outcome where
  warnings : List String
  httpsAvailable : Bool
  dirCreated : Bool
  httpsStarted : Bool
  httpStarted : Bool
  returned : String

/-- Mirrors StartWebServer (server.go lines 131-181) as a trace over the
file-system abstraction.  The two listen loops are external: httpRun is
the error with which httpServer.ListenAndServe() eventually returns, and
httpsRun the error of the detached httpsServer.ListenAndServeTLS, whose
value the code discards (go statement, line 177), so it does not occur
in the body.  The per-request behaviour of the started HTTP listener is
httpListenerHandler. -/
def StartWebServer (fs : FS) (config : Config) (httpRun httpsRun : String) : Outcome :=
  if config.CertsDir.length == 0 then
    { warnings := [noCertsWarning]
      httpsAvailable := false
      dirCreated := false
      httpsStarted := false
      httpStarted := true
      returned := httpRun }
  else if fs.openOk config.CertsDir then
    { warnings := []
      httpsAvailable := true
      dirCreated := false
      httpsStarted := true
      httpStarted := true
      returned := httpRun }
  else
    match fs.mkdirErr config.CertsDir with
    | some e =>
      { warnings := []
        httpsAvailable := true
        dirCreated := false
        httpsStarted := false
        httpStarted := false
        returned := e }
    | none =>
      { warnings := []
        httpsAvailable := true
        dirCreated := true
        httpsStarted := true
        httpStarted := true
        returned := httpRun }

/- JSON model.  JSON text parsing and rendering are delegated to Go's
encoding/json; a document is modelled as the ordered list of key/value
pairs of its top-level object, values restricted to the primitive kinds
the Config fields use. -/

/-- A primitive JSON value: string, integral number, or boolean. -/
inductive JValue where
  | str (s : String)
  | num (n : Int)
  | bool (b : Bool)
deriving DecidableEq

/-- A JSON object: its key/value pairs in document order. -/
abbrev JObject := List (String × JValue)

/-- The serializable fields of Config (the Handler field carries the
json tag "-" and takes no part in (un)marshalling). -/
inductive CField where
  | host
  | http
  | https
  | certsDir
  | redirectHTTP
deriving DecidableEq

/-- The json tag of each serializable field, in struct order
(server.go lines 23-41; note the tag of RedirectHTTP keeps its Go
spelling). -/
def fieldTags : List (CField × String) :=
  [(.host, "host"), (.http, "http"), (.https, "https"),
   (.certsDir, "certsDir"), (.redirectHTTP, "RedirectHTTP")]

/-- ASCII lower-casing of a string, for case-insensitive key matching. -/
def asciiLower (s : String) : String :=
  String.mk (s.data.map Char.toLower)

/-- Modelled from encoding/json's field matching on Unmarshal: an
incoming object key selects the field whose tag matches exactly, or
failing that the first field whose tag matches case-insensitively;
unmatched keys are ignored. -/
def matchKey (k : String) : Option CField :=
  match fieldTags.find? (fun p => p.2 == k) with
  | some p => some p.1
  | none => (fieldTags.find? (fun p => asciiLower p.2 == asciiLower k)).map (fun p => p.1)

/-- Modelled from encoding/json: storing a primitive JSON value into a
Config field; a kind mismatch is an unmarshalling error. -/
def setField (c : Config) (f : CField) (v : JValue) : Except String Config :=
  match f, v with
  | .host, .str s => .ok { c with Host := s }
  | .http, .num n => .ok { c with HTTPPort := n }
  | .https, .num n => .ok { c with HTTPSPort := n }
  | .certsDir, .str s => .ok { c with CertsDir := s }
  | .redirectHTTP, .bool b => .ok { c with RedirectHTTP := b }
  | _, _ => .error "json: cannot unmarshal value into Config field"

/-- The zero value of Config, the starting point of json.Unmarshal into
a freshly declared variable (server.go line 107). -/
def zeroConfig : Config :=
  { Host := ""
    HTTPPort := 0
    HTTPSPort := 0
    Handler := none
    CertsDir := ""
    RedirectHTTP := false }

/-- Modelled from json.Unmarshal(data, &config) for a top-level object:
keys are processed in document order against the zero Config. -/
def unmarshalConfig (o : JObject) : Except String Config :=
  o.foldlM
    (fun c kv =>
      match matchKey kv.1 with
      | some f => setField c f kv.2
      | none => .ok c)
    zeroConfig

/-- Modelled from json.Marshal on a Config value: one key per
serializable field, in struct order, under its json tag. -/
def marshalConfig (c : Config) : JObject :=
  [("host", .str c.Host), ("http", .num c.HTTPPort), ("https", .num c.HTTPSPort),
   ("certsDir", .str c.CertsDir), ("RedirectHTTP", .bool c.RedirectHTTP)]

/-- loadConfig (server.go lines 102-113).  Reading the file and parsing
the JSON text are external; the parameter fs yields, per path, either
the parsed top-level object or the read/parse error. -/
def loadConfig (fs : String → Except String JObject) (path : String) :
    Except String Config :=
  match fs path with
  | .error e => .error e
  | .ok doc => unmarshalConfig doc

/- Command-line flag parsing.  ConfigFromFlags registers its flags on a
flag.FlagSet with ContinueOnError; the parsing loop below is modelled
from the flag package's parseOne, and value parsing from strconv. -/

/-- Modelled from strconv's lower(c): set the 0x20 bit. -/
def charLower (c : Char) : Char :=
  Char.ofNat (c.toNat ||| 32)

/-- Digit value of a character as strconv.ParseUint reads it: decimal
digits, then letters starting at value 10; none for anything else. -/
def digitVal (c : Char) : Option Nat :=
  if '0' ≤ c ∧ c ≤ '9' then some (c.toNat - '0'.toNat)
  else if 'a' ≤ charLower c ∧ charLower c ≤ 'z' then some ((charLower c).toNat - 'a'.toNat + 10)
  else none

/-- Loop of strconv's underscoreOK: saw is the class of the previous
character (caret at the start, '0' after a digit or base prefix, '_'
after an underscore, '!' otherwise). -/
def undLoop (hex : Bool) : Char → List Char → Bool
  | saw, [] => saw ≠ '_'
  | saw, c :: cs =>
    if ('0' ≤ c ∧ c ≤ '9') ∨ (hex ∧ 'a' ≤ charLower c ∧ charLower c ≤ 'f') then
      undLoop hex '0' cs
    else if c = '_' then
      if saw ≠ '0' then false else undLoop hex '_' cs
    else if saw = '_' then false
    else undLoop hex '!' cs

/-- Modelled from strconv's underscoreOK: underscores may appear only
between digits, or between a base prefix and a digit. -/
def underscoreOK (cs0 : List Char) : Bool :=
  let cs :=
    match cs0 with
    | c :: rest => if c = '-' ∨ c = '+' then rest else cs0
    | [] => cs0
  match cs with
  | '0' :: c2 :: rest =>
    if charLower c2 = 'b' ∨ charLower c2 = 'o' ∨ charLower c2 = 'x' then
      undLoop (charLower c2 = 'x') '0' rest
    else undLoop false '^' ('0' :: c2 :: rest)
  | other => undLoop false '^' other

/-- Digit-accumulation loop of strconv.ParseUint with base argument 0:
underscores are skipped (recorded), other characters must be digits
below the base.  Returns the accumulated value and whether an
underscore was seen; none on a syntax error. -/
def parseUintLoop (base : Nat) : Nat → Bool → List Char → Option (Nat × Bool)
  | n, und, [] => some (n, und)
  | n, und, c :: cs =>
    if c = '_' then parseUintLoop base n true cs
    else
      match digitVal c with
      | none => none
      | some d => if d ≥ base then none else parseUintLoop base (n * base + d) und cs

/-- Modelled from strconv.ParseUint(s, 0, 64): base detection from the
0b/0o/0x prefix (a bare leading 0 selects the legacy octal base), digit
accumulation, the trailing underscore-placement check, and the 64-bit
range check.  All error cases collapse to none. -/
def parseUint0 (cs0 : List Char) : Option Nat :=
  match cs0 with
  | [] => none
  | _ =>
    let p : Nat × List Char :=
      match cs0 with
      | '0' :: c2 :: rest =>
        if rest ≠ [] ∧ charLower c2 = 'b' then (2, rest)
        else if rest ≠ [] ∧ charLower c2 = 'o' then (8, rest)
        else if rest ≠ [] ∧ charLower c2 = 'x' then (16, rest)
        else (8, c2 :: rest)
      | other => (10, other)
    match parseUintLoop p.1 0 false p.2 with
    | none => none
    | some (n, und) =>
      if und ∧ underscoreOK cs0 = false then none
      else if n > 2 ^ 64 - 1 then none
      else some n

/-- Modelled from strconv.ParseInt(s, 0, 64), the parser behind the flag
package's int flags: optional sign, then ParseUint, then the signed
64-bit range check.  All error cases collapse to none. -/
def parseInt0 (s : String) : Option Int :=
  match s.data with
  | [] => none
  | c :: cs =>
    let sp : Bool × List Char :=
      if c = '+' then (false, cs)
      else if c = '-' then (true, cs)
      else (false, c :: cs)
    match parseUint0 sp.2 with
    | none => none
    | some un =>
      if ¬sp.1 ∧ un ≥ 2 ^ 63 then none
      else if sp.1 ∧ un > 2 ^ 63 then none
      else some (if sp.1 then -(un : Int) else (un : Int))

/-- Modelled from strconv.ParseBool, the parser behind the flag
package's bool flags. -/
def parseGoBool (s : String) : Option Bool :=
  if s = "1" ∨ s = "t" ∨ s = "T" ∨ s = "true" ∨ s = "TRUE" ∨ s = "True" then some true
  else if s = "0" ∨ s = "f" ∨ s = "F" ∨ s = "false" ∨ s = "FALSE" ∨ s = "False" then some false
  else none

/-- The values of the six flags ConfigFromFlags registers (server.go
lines 78-83). -/
structure FlagValues where
  host : String
  http : Int
  https : Int
  certsDir : String
  redirectHTTP : Bool
  configFile : String
deriving DecidableEq

/-- Flag defaults as registered by ConfigFromFlags: the DefaultConfig
fields, and the empty string for the config-file flag. -/
def defaultFlagValues : FlagValues :=
  { host := DefaultConfig.Host
    http := DefaultConfig.HTTPPort
    https := DefaultConfig.HTTPSPort
    certsDir := DefaultConfig.CertsDir
    redirectHTTP := DefaultConfig.RedirectHTTP
    configFile := "" }

/-- Kind of a registered flag, deciding how the flag package obtains and
parses its value. -/
inductive FlagKind where
  | str
  | int
  | bool
deriving DecidableEq

/-- The flag table ConfigFromFlags registers (server.go lines 78-83):
flag-name lookup as the flag package performs it, by exact name. -/
def flagLookup (name : String) : Option FlagKind :=
  if name = "host" then some .str
  else if name = "http" then some .int
  else if name = "https" then some .int
  else if name = "certsDir" then some .str
  else if name = "RedirectHTTP" then some .bool
  else if name = "config" then some .str
  else none

/-- Store a parsed value into the flag that bears the given name; none
when the value does not parse for the flag's kind. -/
def setFlag (v : FlagValues) (name : String) (val : String) : Option FlagValues :=
  if name = "host" then some { v with host := val }
  else if name = "http" then (parseInt0 val).map (fun n => { v with http := n })
  else if name = "https" then (parseInt0 val).map (fun n => { v with https := n })
  else if name = "certsDir" then some { v with certsDir := val }
  else if name = "RedirectHTTP" then (parseGoBool val).map (fun b => { v with redirectHTTP := b })
  else if name = "config" then some { v with configFile := val }
  else none

/-- Split a flag token's name part at the first equals sign: the name
characters and, when an equals sign occurs, the value characters after
it. -/
def splitEq : List Char → List Char × Option (List Char)
  | [] => ([], none)
  | c :: rest =>
    if c = '=' then ([], some rest)
    else
      let p := splitEq rest
      (c :: p.1, p.2)

/-- What the flag package's parseOne decides about a single argument
token: stop parsing (a non-flag argument or the bare double-minus
terminator), fail, continue with updated flag values, or continue after
fetching the named flag's value from the next argument. -/
inductive TokenAct where
  | stop
  | err (e : String)
  | setNow (v' : FlagValues)
  | needValue (name : String)
deriving DecidableEq

/-- Modelled from the flag package's parseOne over the flag table of
ConfigFromFlags, the per-token part: one or two minuses introduce a
flag name, an equals sign inside the token carries the value, a bool
flag without one defaults to true, other flags without one ask for the
next argument; an unknown name or a value that fails to parse is an
error (the names help and h ask for the usage message, also an error
under ContinueOnError). -/
def parseToken (v : FlagValues) (s : String) : TokenAct :=
  match s.data with
  | [] => .stop
  | [_] => .stop
  | c1 :: c2 :: cs =>
    if c1 ≠ '-' then .stop
    else
      match if c2 = '-' then cs else c2 :: cs with
      | [] => .stop
      | nc0 :: ncs0 =>
        if nc0 = '-' ∨ nc0 = '=' then .err ("bad flag syntax: " ++ s)
        else
          let p := splitEq (nc0 :: ncs0)
          let name : String := String.mk p.1
          match flagLookup name with
          | none =>
            if name = "help" ∨ name = "h" then .err "flag: help requested"
            else .err ("flag provided but not defined: -" ++ name)
          | some FlagKind.bool =>
            match p.2 with
            | some valChars =>
              match setFlag v name (String.mk valChars) with
              | some v' => .setNow v'
              | none => .err ("invalid boolean value for -" ++ name)
            | none =>
              match setFlag v name "true" with
              | some v' => .setNow v'
              | none => .err ("invalid boolean value for -" ++ name)
          | some _ =>
            match p.2 with
            | some valChars =>
              match setFlag v name (String.mk valChars) with
              | some v' => .setNow v'
              | none => .err ("invalid value for -" ++ name)
            | none => .needValue name

/-- Modelled from the flag package's parsing loop (FlagSet.Parse):
parseToken is applied to each argument in turn until it stops or
fails; a flag that asked for a value takes the next argument as its
value, a missing or unparsable one being an error. -/
def parseFlagsAux (v : FlagValues) : List String → Except String FlagValues
  | [] => .ok v
  | s :: rest =>
    match parseToken v s with
    | .stop => .ok v
    | .err e => .error e
    | .setNow v' => parseFlagsAux v' rest
    | .needValue name =>
      match rest with
      | [] => .error ("flag needs an argument: -" ++ name)
      | valArg :: rest' =>
        match setFlag v name valArg with
        | some v' => parseFlagsAux v' rest'
        | none => .error ("invalid value for -" ++ name)

/-- ConfigFromFlags (server.go lines 75-98): parse the arguments against
the registered flag table (defaults from DefaultConfig), then either
load the JSON config file named by a nonempty -config value, or build
the Config from the flag values (with a nil Handler). -/
def ConfigFromFlags (fs : String → Except String JObject) (args : List String) :
    Except String Config :=
  match parseFlagsAux defaultFlagValues args with
  | .error e => .error e
  | .ok v =>
    if v.configFile.length > 0 then
      loadConfig fs v.configFile
    else
      .ok { Host := v.host
            HTTPPort := v.http
            HTTPSPort := v.https
            Handler := none
            CertsDir := v.certsDir
            RedirectHTTP := v.redirectHTTP }

/- Further helper lemmas. -/

theorem string_length_beq_zero_false {s : String} (h : s ≠ "") :
    (s.length == 0) = false := by
  rw [beq_eq_false_iff_ne]
  exact fun hl => h ((string_length_zero_iff s).mp hl)

theorem url_render_path_only (p : String) :
    URL.render { path := p, rawQuery := "", fragment := "" } = p := by
  simp [URL.render]

theorem splitEq_no_eq : ∀ cs : List Char, '=' ∉ cs → splitEq cs = (cs, none)
  | [], _ => rfl
  | c :: rest, h => by
    have hc : c ≠ '=' := fun he => h (he ▸ List.mem_cons_self c rest)
    have hr : '=' ∉ rest := fun hm => h (List.mem_cons_of_mem c hm)
    simp [splitEq, hc, splitEq_no_eq rest hr]

/-- Claim C5: for every Config value with non-null string, int and bool
fields, serializing it to JSON and loading the result back with
loadConfig yields a Config that is field-wise identical to the
original, with the handler field excluded from the comparison (the
loaded handler is nil, all other fields equal the original's). -/
theorem config_json_round_trip (c : Config) :
    loadConfig (fun _ => .ok (marshalConfig c)) "config.json"
      = .ok { c with Handler := none } := by
  rfl

/-- Claim C4: for every Config with an empty certificates directory,
StartWebServer does not start the HTTPS listener and logs an observable
warning, and HTTPS availability is computed exactly as the certificates
directory being nonempty. -/
theorem https_disabled_without_certsDir (fs : FS) (c : Config) (hr hs : String) :
    (StartWebServer fs c hr hs).httpsAvailable = decide (c.CertsDir ≠ "") ∧
    (c.CertsDir = "" →
      (StartWebServer fs c hr hs).httpsStarted = false ∧
      (StartWebServer fs c hr hs).warnings = [noCertsWarning]) := by
  by_cases h : c.CertsDir = ""
  · have hlen : (c.CertsDir.length == 0) = true := by rw [h]; rfl
    refine ⟨?_, fun _ => ?_⟩
    · simp [StartWebServer, hlen, h]
    · simp [StartWebServer, hlen]
  · have hlen := string_length_beq_zero_false h
    constructor
    · simp only [StartWebServer, hlen, Bool.false_eq_true, if_false, decide_not,
        decide_eq_true_eq]
      split
      · simp [h]
      · split <;> simp [h]
    · intro hc; exact absurd hc h

/-- Claim C6: for every Config with a nonempty certificates directory,
StartWebServer ensures the directory exists before any listener starts:
when the listeners do start the directory either already opened or was
created, a creation failure is returned immediately as the call's error
with no listener started, and a successful creation leaves the
directory existing. -/
theorem certsDir_ensured_before_listen (fs : FS) (c : Config) (hr hs : String)
    (hne : c.CertsDir ≠ "") :
    ((StartWebServer fs c hr hs).httpStarted = true →
      (fs.openOk c.CertsDir || (StartWebServer fs c hr hs).dirCreated) = true) ∧
    (∀ e, fs.openOk c.CertsDir = false → fs.mkdirErr c.CertsDir = some e →
      (StartWebServer fs c hr hs).returned = e ∧
      (StartWebServer fs c hr hs).httpStarted = false ∧
      (StartWebServer fs c hr hs).httpsStarted = false) ∧
    (fs.openOk c.CertsDir = false → fs.mkdirErr c.CertsDir = none →
      (StartWebServer fs c hr hs).dirCreated = true) := by
  have hlen := string_length_beq_zero_false hne
  simp only [StartWebServer, hlen, Bool.false_eq_true, if_false]
  by_cases hop : fs.openOk c.CertsDir = true
  · simp [hop]
  · have hop' : fs.openOk c.CertsDir = false := by
      cases hof : fs.openOk c.CertsDir
      · rfl
      · exact absurd hof hop
    cases hmk : fs.mkdirErr c.CertsDir with
    | some e => simp [hop', hmk]
    | none => simp [hop', hmk]

/-- Claim C7: StartWebServer blocks on the HTTP listener only and returns that
listener's termination or failure as its result; its whole observable
outcome is independent of the detached HTTPS listener's error, the only
other returned error is the pre-listener directory-creation failure,
and resolver errors are returned synchronously by ConfigFromFlags. -/
theorem http_error_propagation_only (fs : FS) (c : Config) (hr hs hs' : String) :
    StartWebServer fs c hr hs = StartWebServer fs c hr hs' ∧
    ((StartWebServer fs c hr hs).httpStarted = true →
      (StartWebServer fs c hr hs).returned = hr) ∧
    ((StartWebServer fs c hr hs).httpStarted = false →
      (StartWebServer fs c hr hs).httpsStarted = false ∧
      fs.mkdirErr c.CertsDir = some (StartWebServer fs c hr hs).returned) ∧
    (∀ (fsf : String → Except String JObject) (args : List String) (e : String),
      parseFlagsAux defaultFlagValues args = .error e →
      ConfigFromFlags fsf args = .error e) := by
  refine ⟨rfl, ?_, ?_, ?_⟩
  · simp only [StartWebServer]
    split
    · intro _; rfl
    · split
      · intro _; rfl
      · split
        · intro h; exact absurd h (by simp)
        · intro _; rfl
  · simp only [StartWebServer]
    split
    · intro h; exact absurd h (by simp)
    · split
      · intro h; exact absurd h (by simp)
      · split
        · rename_i hmk; intro _; exact ⟨rfl, hmk⟩
        · intro h; exact absurd h (by simp)
  · intro fsf args e hpe
    simp only [ConfigFromFlags, hpe]

/-- Claim C8: whenever no redirect applies (RedirectHTTP false, or an empty
certificates directory even with RedirectHTTP true), every request
reaching the HTTP listener's fallback is forwarded to the configured
handler and the client receives that handler's response, with no
redirect attempted. -/
theorem fallback_forwards_to_handler (c : Config) (r : Request) (h : Request → Response)
    (hh : c.Handler = some h)
    (hacme : acmeChallengePath r.url.path = false)
    (hnored : c.RedirectHTTP = false ∨ c.CertsDir = "") :
    httpListenerHandler c r = .handled (h r) := by
  have hcond : (c.RedirectHTTP && httpsAvailableOf c) = false := by
    cases hnored with
    | inl hrf => simp [hrf]
    | inr hcd => simp [httpsAvailableOf, hcd]
  simp [httpListenerHandler, httpHandlerOf, hacme, hcond, hh]

/-- Claim C9: when no redirect applies and the Config's handler is nil, a
request reaching the HTTP listener's fallback is dropped silently with
nothing written (an empty response body), without invoking or
dereferencing the handler. -/
theorem nil_handler_silent_drop (c : Config) (r : Request)
    (hnil : c.Handler = none)
    (hacme : acmeChallengePath r.url.path = false)
    (hnored : c.RedirectHTTP = false ∨ c.CertsDir = "") :
    httpListenerHandler c r = .empty := by
  have hcond : (c.RedirectHTTP && httpsAvailableOf c) = false := by
    cases hnored with
    | inl hrf => simp [hrf]
    | inr hcd => simp [httpsAvailableOf, hcd]
  simp [httpListenerHandler, httpHandlerOf, hacme, hcond, hnil]

/-- Claim C1: with RedirectHTTP true and HTTPS available (nonempty
certificates directory), a non-ACME-challenge request for path p gets a
301 permanent redirect; the Location rewrites the Host header's
":httpPort" suffix to ":httpsPort" exactly when the Host header
literally ends in ":httpPort", and a Host header without that suffix is
redirected to https://host followed by the path, with no port suffix
added. -/
theorem redirect_location_port_rewrite (c : Config) (host p : String)
    (hred : c.RedirectHTTP = true) (hcd : c.CertsDir ≠ "")
    (hacme : acmeChallengePath p = false) :
    (∀ pre : String, host = pre ++ (":" ++ toString c.HTTPPort) →
      httpListenerHandler c { host := host, url := { path := p, rawQuery := "", fragment := "" } }
        = .redirect 301 ("https://" ++ (pre ++ (":" ++ toString c.HTTPSPort)) ++ p)) ∧
    (hasSuffixStr host (":" ++ toString c.HTTPPort) = false →
      httpListenerHandler c { host := host, url := { path := p, rawQuery := "", fragment := "" } }
        = .redirect 301 ("https://" ++ host ++ p)) := by
  have hcond : (c.RedirectHTTP && httpsAvailableOf c) = true := by
    simp [hred, httpsAvailableOf, string_length_beq_zero_false hcd]
  constructor
  · intro pre hpre
    subst hpre
    simp only [httpListenerHandler, httpHandlerOf, hacme, Bool.false_eq_true, if_false,
      hcond, if_true, hasSuffixStr_append, trimSuffixStr_append, url_render_path_only]
  · intro hnos
    simp only [httpListenerHandler, httpHandlerOf, hacme, Bool.false_eq_true, if_false,
      hcond, if_true, hnos, url_render_path_only]

/-- Claim C10: every redirected HTTP request gets a Location that is the
concatenation of the https scheme, the possibly port-rewritten host and
the request URL's rendered form (path, then query, then fragment), so
query parameters survive the redirect. -/
theorem redirect_preserves_full_uri (c : Config) (r : Request)
    (hred : c.RedirectHTTP = true) (hcd : c.CertsDir ≠ "")
    (hacme : acmeChallengePath r.url.path = false) :
    httpListenerHandler c r = .redirect 301
      ("https://" ++
        (if hasSuffixStr r.host (":" ++ toString c.HTTPPort)
          then trimSuffixStr r.host (":" ++ toString c.HTTPPort) ++ (":" ++ toString c.HTTPSPort)
          else r.host) ++
        (r.url.path ++ (if r.url.rawQuery = "" then "" else "?" ++ r.url.rawQuery)
          ++ (if r.url.fragment = "" then "" else "#" ++ r.url.fragment))) ∧
    (r.url.rawQuery ≠ "" → ∃ a b : String,
      URL.render r.url = a ++ ("?" ++ r.url.rawQuery) ++ b) := by
  have hcond : (c.RedirectHTTP && httpsAvailableOf c) = true := by
    simp [hred, httpsAvailableOf, string_length_beq_zero_false hcd]
  constructor
  · simp only [httpListenerHandler, httpHandlerOf, hacme, Bool.false_eq_true, if_false,
      hcond, if_true, URL.render]
  · intro hq
    exact ⟨r.url.path, (if r.url.fragment = "" then "" else "#" ++ r.url.fragment),
      by simp [URL.render, hq]⟩

/-- A JSON document carrying any subset of the keys host, http, https,
certsDir and redirectHttp (spelled as in the documented schema), each
with a value of the schema's kind. -/
def mkOptDoc (h : Option String) (tp tps : Option Int) (cd : Option String)
    (rd : Option Bool) : JObject :=
  (match h with | some s => [("host", JValue.str s)] | none => []) ++
  (match tp with | some n => [("http", JValue.num n)] | none => []) ++
  (match tps with | some n => [("https", JValue.num n)] | none => []) ++
  (match cd with | some s => [("certsDir", JValue.str s)] | none => []) ++
  (match rd with | some b => [("redirectHttp", JValue.bool b)] | none => [])

/-- Claim C3: when the parsed -config flag value is a nonempty path,
ConfigFromFlags answers with the Config loaded from the JSON document
at that path, ignoring the values of every other flag; the JSON keys
host, http, https, certsDir and redirectHttp map onto the Config
fields, and every key missing from the document leaves the
corresponding field at its zero value, not the flag default. -/
theorem config_flag_override_json_mapping :
    (∀ (fsf : String → Except String JObject) (args : List String) (v : FlagValues),
      parseFlagsAux defaultFlagValues args = .ok v → v.configFile ≠ "" →
      ConfigFromFlags fsf args = loadConfig fsf v.configFile) ∧
    (∀ (h : Option String) (tp tps : Option Int) (cd : Option String) (rd : Option Bool),
      unmarshalConfig (mkOptDoc h tp tps cd rd) =
        .ok { Host := h.getD "", HTTPPort := tp.getD 0, HTTPSPort := tps.getD 0,
              Handler := none, CertsDir := cd.getD "", RedirectHTTP := rd.getD false }) := by
  constructor
  · intro fsf args v hp hne
    have hlen : v.configFile.length > 0 := by
      rcases Nat.eq_zero_or_pos v.configFile.length with h0 | hpos
      · exact absurd ((string_length_zero_iff _).mp h0) hne
      · exact hpos
    simp only [ConfigFromFlags, hp, hlen, if_true]
  · intro h tp tps cd rd
    cases h <;> cases tp <;> cases tps <;> cases cd <;> cases rd <;> rfl

instance : DecidableEq (Except String FlagValues) := fun a b =>
  match a, b with
  | .ok x, .ok y => if h : x = y then isTrue (by rw [h]) else isFalse (by simp [h])
  | .error x, .error y => if h : x = y then isTrue (by rw [h]) else isFalse (by simp [h])
  | .ok _, .error _ => isFalse (by simp)
  | .error _, .ok _ => isFalse (by simp)

theorem parseFlagsAux_cons (v : FlagValues) (s : String) (rest : List String) :
    parseFlagsAux v (s :: rest) =
      match parseToken v s with
      | .stop => .ok v
      | .err e => .error e
      | .setNow v' => parseFlagsAux v' rest
      | .needValue name =>
        match rest with
        | [] => .error ("flag needs an argument: -" ++ name)
        | valArg :: rest' =>
          match setFlag v name valArg with
          | some v' => parseFlagsAux v' rest'
          | none => .error ("invalid value for -" ++ name) := by
  rw [parseFlagsAux]

theorem parseToken_unknown (nc : Char) (ncs : List Char) (v : FlagValues)
    (h1 : nc ≠ '-') (h2 : nc ≠ '=') (h3 : '=' ∉ (nc :: ncs))
    (hlook : flagLookup (String.mk (nc :: ncs)) = none) :
    ∃ e, parseToken v (String.mk ('-' :: nc :: ncs)) = .err e := by
  have hsplit : splitEq (nc :: ncs) = (nc :: ncs, none) := splitEq_no_eq _ h3
  simp only [parseToken]
  simp only [if_neg h1]
  simp only [hsplit, hlook]
  by_cases hh : String.mk (nc :: ncs) = "help" ∨ String.mk (nc :: ncs) = "h"
  · simp [hh, h1, h2]
  · simp [hh, h1, h2]

/-- Claim C2 counterexample: the Resolver does not accept a flag named
redirectHttp; flag names are case-sensitive and the registered name is
RedirectHTTP, so an argument list carrying -redirectHttp=false is
rejected as an unknown flag instead of being parsed. -/
theorem redirectHttp_flag_rejected :
    ConfigFromFlags (fun _ => Except.error "no such file") ["-redirectHttp=false"]
      = .error "flag provided but not defined: -redirectHttp" := by
  rfl

/-- Claim C2 amended: the Resolver accepts exactly the flags -host, -http,
-https, -certsDir, -RedirectHTTP and -config (RedirectHTTP spelled as
registered, case-sensitively); a well-formed flag token naming any
other flag is a parse error, as is a malformed value for an int or
bool flag, while each registered flag accepts a value. -/
theorem flag_set_exact :
    (∀ name : String, (flagLookup name).isSome = true ↔
      name ∈ ["host", "http", "https", "certsDir", "RedirectHTTP", "config"]) ∧
    (∀ (nc : Char) (ncs : List Char) (rest : List String) (v : FlagValues),
      nc ≠ '-' → nc ≠ '=' → '=' ∉ (nc :: ncs) →
      flagLookup (String.mk (nc :: ncs)) = none →
      ∃ e, parseFlagsAux v (String.mk ('-' :: nc :: ncs) :: rest) = .error e) ∧
    (∀ (val : String) (rest : List String) (v : FlagValues),
      parseInt0 val = none →
      parseFlagsAux v ("-http" :: val :: rest) = .error "invalid value for -http") ∧
    (∀ (val : String) (rest : List String) (v : FlagValues),
      parseGoBool val = none →
      parseFlagsAux v (String.mk ("-RedirectHTTP=".data ++ val.data) :: rest)
        = .error "invalid boolean value for -RedirectHTTP") ∧
    (∀ v : FlagValues,
      parseFlagsAux v ["-host=a"] = .ok { v with host := "a" } ∧
      parseFlagsAux v ["-http=8080"] = .ok { v with http := 8080 } ∧
      parseFlagsAux v ["-https=8443"] = .ok { v with https := 8443 } ∧
      parseFlagsAux v ["-certsDir=d"] = .ok { v with certsDir := "d" } ∧
      parseFlagsAux v ["-RedirectHTTP=false"] = .ok { v with redirectHTTP := false } ∧
      parseFlagsAux v ["-config=f"] = .ok { v with configFile := "f" }) := by
  refine ⟨?_, ?_, ?_, ?_, ?_⟩
  · intro name
    constructor
    · intro hsome
      unfold flagLookup at hsome
      split_ifs at hsome with e1 e2 e3 e4 e5 e6
      · simp [e1]
      · simp [e2]
      · simp [e3]
      · simp [e4]
      · simp [e5]
      · simp [e6]
      · simp at hsome
    · intro hmem
      fin_cases hmem <;> rfl
  · intro nc ncs rest v h1 h2 h3 hlook
    obtain ⟨e, he⟩ := parseToken_unknown nc ncs v h1 h2 h3 hlook
    exact ⟨e, by rw [parseFlagsAux_cons, he]⟩
  · intro val rest v hbad
    have htok : parseToken v "-http" = .needValue "http" := rfl
    rw [parseFlagsAux_cons, htok]
    simp [setFlag, hbad]
  · intro val rest v hbad
    have htok : parseToken v (String.mk ("-RedirectHTTP=".data ++ val.data))
        = (match setFlag v "RedirectHTTP" (String.mk val.data) with
           | some v' => .setNow v'
           | none => .err "invalid boolean value for -RedirectHTTP") := rfl
    have hv : String.mk val.data = val := rfl
    rw [parseFlagsAux_cons, htok, hv]
    simp [setFlag, hbad]
  · intro v
    refine ⟨?_, ?_, ?_, ?_, ?_, ?_⟩ <;> (rw [parseFlagsAux_cons]; rfl)

/-- Claim C2 witness: the amended statement at concrete inputs: host is a
registered flag, the unknown flag -verb errors, -http rejects the value
nope, -RedirectHTTP rejects the value maybe, and -certsDir=d is
accepted. -/
theorem flag_set_exact_witness :
    ((flagLookup "host").isSome = true) ∧
    (∃ e, parseFlagsAux defaultFlagValues
      [String.mk ('-' :: 'v' :: ['e', 'r', 'b']), "x"] = .error e) ∧
    (parseFlagsAux defaultFlagValues ["-http", "nope"]
      = .error "invalid value for -http") ∧
    (parseFlagsAux defaultFlagValues
      [String.mk ("-RedirectHTTP=".data ++ "maybe".data)]
      = .error "invalid boolean value for -RedirectHTTP") ∧
    (parseFlagsAux defaultFlagValues ["-certsDir=d"]
      = .ok { defaultFlagValues with certsDir := "d" }) := by
  refine ⟨(flag_set_exact.1 "host").mpr (by simp), ?_, ?_, ?_, ?_⟩
  · exact flag_set_exact.2.1 'v' ['e', 'r', 'b'] ["x"] defaultFlagValues
      (by decide) (by decide) (by decide) (by decide)
  · exact flag_set_exact.2.2.1 "nope" [] defaultFlagValues (by decide)
  · exact flag_set_exact.2.2.2.1 "maybe" [] defaultFlagValues (by decide)
  · exact (flag_set_exact.2.2.2.2 defaultFlagValues).2.2.2.1

/- Sample values for the witness statements. -/

def sampleFS : FS := { openOk := fun _ => true, mkdirErr := fun _ => none }

def sampleFSMissing : FS := { openOk := fun _ => false, mkdirErr := fun _ => none }

def sampleFSFailing : FS := { openOk := fun _ => false, mkdirErr := fun _ => some "mkdir failed" }

def sampleConfig : Config :=
  { Host := "example.com"
    HTTPPort := 80
    HTTPSPort := 443
    Handler := none
    CertsDir := "certs"
    RedirectHTTP := true }

def itWorks : Request → Response := fun _ => { status := 200, body := "it works" }

def sampleJsonFS : String → Except String JObject := fun p =>
  if p = "cfg" then .ok [("https", JValue.num 8443)] else .error "no such file"

/-- Claim C1 witness: a request for /a with Host header example.com:80 against
HTTP port 80 and HTTPS port 443 is redirected permanently to
https://example.com:443/a. -/
theorem redirect_location_port_rewrite_witness :
    httpListenerHandler sampleConfig
      { host := "example.com:80", url := { path := "/a", rawQuery := "", fragment := "" } }
      = .redirect 301 "https://example.com:443/a" := by
  have h := (redirect_location_port_rewrite sampleConfig "example.com:80" "/a"
    rfl (by decide) (by decide)).1 "example.com" (by decide)
  exact h.trans (by decide)

/-- Claim C3 witness: with -config=cfg among the arguments, the resolved
Config is the one loadConfig reads from cfg, the other flag values
being ignored. -/
theorem config_flag_override_json_mapping_witness :
    ConfigFromFlags sampleJsonFS ["-config=cfg", "-host", "ignored"]
      = loadConfig sampleJsonFS "cfg" :=
  config_flag_override_json_mapping.1 sampleJsonFS ["-config=cfg", "-host", "ignored"]
    { host := "ignored", http := 80, https := 443, certsDir := "certs",
      redirectHTTP := true, configFile := "cfg" }
    (by decide) (by decide)

/-- Claim C4 witness: with an empty certificates directory the HTTPS listener
is not started and the warning is logged. -/
theorem https_disabled_without_certsDir_witness :
    (StartWebServer sampleFS { sampleConfig with CertsDir := "" } "E" "F").httpsStarted = false ∧
    (StartWebServer sampleFS { sampleConfig with CertsDir := "" } "E" "F").warnings
      = [noCertsWarning] :=
  (https_disabled_without_certsDir sampleFS { sampleConfig with CertsDir := "" } "E" "F").2 rfl

/-- Claim C6 witness: a missing certificates directory is created when Mkdir
succeeds, and when Mkdir fails its error is returned with no listener
started. -/
theorem certsDir_ensured_before_listen_witness :
    (StartWebServer sampleFSMissing sampleConfig "E" "F").dirCreated = true ∧
    ((StartWebServer sampleFSFailing sampleConfig "E" "F").returned = "mkdir failed" ∧
      (StartWebServer sampleFSFailing sampleConfig "E" "F").httpStarted = false ∧
      (StartWebServer sampleFSFailing sampleConfig "E" "F").httpsStarted = false) :=
  ⟨(certsDir_ensured_before_listen sampleFSMissing sampleConfig "E" "F" (by decide)).2.2 rfl rfl,
   (certsDir_ensured_before_listen sampleFSFailing sampleConfig "E" "F" (by decide)).2.1
     "mkdir failed" rfl rfl⟩

/-- Claim C7 witness: the outcome does not depend on the HTTPS listener's
error, and the returned error is the HTTP listener's. -/
theorem http_error_propagation_only_witness :
    StartWebServer sampleFS sampleConfig "E" "F1"
      = StartWebServer sampleFS sampleConfig "E" "F2" ∧
    (StartWebServer sampleFS sampleConfig "E" "F1").returned = "E" :=
  ⟨(http_error_propagation_only sampleFS sampleConfig "E" "F1" "F2").1,
   (http_error_propagation_only sampleFS sampleConfig "E" "F1" "F2").2.1 rfl⟩

/-- Claim C8 witness: with RedirectHTTP false the handler's response (status
200, body it works) reaches the client. -/
theorem fallback_forwards_to_handler_witness :
    httpListenerHandler { sampleConfig with RedirectHTTP := false, Handler := some itWorks }
      { host := "example.com", url := { path := "/a", rawQuery := "", fragment := "" } }
      = .handled { status := 200, body := "it works" } :=
  fallback_forwards_to_handler
    { sampleConfig with RedirectHTTP := false, Handler := some itWorks }
    { host := "example.com", url := { path := "/a", rawQuery := "", fragment := "" } }
    itWorks rfl (by decide) (.inl rfl)

/-- Claim C9 witness: with a nil handler and no redirect, the request is
dropped with nothing written. -/
theorem nil_handler_silent_drop_witness :
    httpListenerHandler { sampleConfig with RedirectHTTP := false }
      { host := "example.com", url := { path := "/a", rawQuery := "", fragment := "" } }
      = .empty :=
  nil_handler_silent_drop { sampleConfig with RedirectHTTP := false }
    { host := "example.com", url := { path := "/a", rawQuery := "", fragment := "" } }
    rfl (by decide) (.inl rfl)

/-- Claim C10 witness: a redirected request for /a?x=1#s keeps its query and
fragment in the Location, and the rendered URL contains the query. -/
theorem redirect_preserves_full_uri_witness :
    httpListenerHandler sampleConfig
      { host := "example.com:80", url := { path := "/a", rawQuery := "x=1", fragment := "s" } }
      = .redirect 301 "https://example.com:443/a?x=1#s" ∧
    (∃ a b : String,
      URL.render { path := "/a", rawQuery := "x=1", fragment := "s" }
        = a ++ ("?" ++ "x=1") ++ b) := by
  have h := redirect_preserves_full_uri sampleConfig
    { host := "example.com:80", url := { path := "/a", rawQuery := "x=1", fragment := "s" } }
    rfl (by decide) (by decide)
  exact ⟨h.1.trans (by decide), h.2 (by decide)⟩

end Dotweb
